import Mathlib

/-!
Verification of the AyurPrakriti scoring / recommendation / report pipeline
(`AyurPrakriti_Pro_Mega.py`) against its natural-language specification.

The Python functions are shallowly embedded: Python floats are modelled as
rationals (`ℚ`), Python dicts as insertion-ordered association lists,
Python `round(x, 1)` as decimal round-half-to-even, and fallible code
(`KeyError`, `ValueError` from `max` on an empty dict, exceptions inside
PDF rendering) as `Option`/`Except` values.
-/

namespace AyurPrakriti

/-! ## Decimal rounding (`round(x, 1)`)

Python `round` rounds half to even.  `rhalfeven y` is the half-to-even
rounding of `y` to an integer, `roundTo1 x` the rounding of `x` to one
decimal place. -/

def rhalfeven (y : ℚ) : ℤ :=
  if y - ⌊y⌋ < 1/2 then ⌊y⌋
  else if 1/2 < y - ⌊y⌋ then ⌊y⌋ + 1
  else if ⌊y⌋ % 2 = 0 then ⌊y⌋ else ⌊y⌋ + 1

def roundTo1 (x : ℚ) : ℚ := (rhalfeven (10 * x) : ℚ) / 10

theorem rhalfeven_abs_sub_le (y : ℚ) : |(rhalfeven y : ℚ) - y| ≤ 1/2 := by
  have hfl : (⌊y⌋ : ℚ) ≤ y := Int.floor_le y
  have hfu : y < ⌊y⌋ + 1 := Int.lt_floor_add_one y
  unfold rhalfeven
  split
  · next h => rw [abs_le]; constructor <;> linarith
  · split
    · next h h' =>
      rw [abs_le]
      push_cast
      constructor <;> linarith
    · next h h' =>
      have : y - ⌊y⌋ = 1/2 := le_antisymm (not_lt.mp h') (not_lt.mp h)
      split <;> (rw [abs_le]; push_cast; constructor <;> linarith)

theorem rhalfeven_le_of_le {y : ℚ} {n : ℤ} (h : y ≤ n) : rhalfeven y ≤ n := by
  have hfl : ⌊y⌋ ≤ n := by
    have := Int.floor_le_floor (α := ℚ) h
    simpa using this
  have hlt : ¬ (y - ⌊y⌋ < 1/2) → ⌊y⌋ + 1 ≤ n := by
    intro h2
    rcases lt_or_eq_of_le hfl with h3 | h3
    · omega
    · exfalso
      push_neg at h2
      rw [h3] at h2
      linarith
  unfold rhalfeven
  split
  · exact hfl
  · next h2 =>
    have h2' : ⌊y⌋ + 1 ≤ n := hlt h2
    split
    · exact h2'
    · split
      · exact hfl
      · exact h2'

theorem le_rhalfeven_of_le {y : ℚ} {n : ℤ} (h : (n : ℚ) ≤ y) : n ≤ rhalfeven y := by
  have hfl : n ≤ ⌊y⌋ := Int.le_floor.mpr h
  unfold rhalfeven
  split
  · exact hfl
  · split
    · omega
    · split <;> omega

theorem roundTo1_abs_sub_le (x : ℚ) : |roundTo1 x - x| ≤ 1/20 := by
  have h := rhalfeven_abs_sub_le (10 * x)
  unfold roundTo1
  rw [abs_le] at h ⊢
  constructor <;> [linarith; linarith]

theorem roundTo1_nonneg {x : ℚ} (h : 0 ≤ x) : 0 ≤ roundTo1 x := by
  have : (0 : ℤ) ≤ rhalfeven (10 * x) := le_rhalfeven_of_le (by push_cast; linarith)
  unfold roundTo1
  have : (0 : ℚ) ≤ (rhalfeven (10 * x) : ℚ) := by exact_mod_cast this
  linarith

theorem roundTo1_le_hundred {x : ℚ} (h : x ≤ 100) : roundTo1 x ≤ 100 := by
  have : rhalfeven (10 * x) ≤ (1000 : ℤ) := rhalfeven_le_of_le (by push_cast; linarith)
  unfold roundTo1
  have : (rhalfeven (10 * x) : ℚ) ≤ (1000 : ℚ) := by exact_mod_cast this
  linarith

/-- Evaluation helper: if `10 * x` lies in `[n, n + 1/2)`, the rounding is `n / 10`. -/
theorem roundTo1_eq_low {x : ℚ} {n : ℤ} (h1 : (n : ℚ) ≤ 10 * x) (h2 : 10 * x - n < 1/2) :
    roundTo1 x = (n : ℚ) / 10 := by
  have hfl : ⌊10 * x⌋ = n := by
    apply Int.floor_eq_iff.mpr
    constructor
    · exact h1
    · linarith
  unfold roundTo1 rhalfeven
  rw [hfl, if_pos (by linarith)]

/-- Evaluation helper: if `10 * x` lies in `(n + 1/2, n + 1)`, the rounding is `(n+1) / 10`. -/
theorem roundTo1_eq_high {x : ℚ} {n : ℤ} (h1 : (n : ℚ) + 1/2 < 10 * x) (h2 : 10 * x < n + 1) :
    roundTo1 x = ((n : ℚ) + 1) / 10 := by
  have hfl : ⌊10 * x⌋ = n := by
    apply Int.floor_eq_iff.mpr
    constructor
    · linarith
    · linarith
  unfold roundTo1 rhalfeven
  rw [hfl, if_neg (by rw [hfl] at *; linarith), if_pos (by linarith)]
  push_cast
  ring

/-! ## Dictionaries

Python dicts are modelled as insertion-ordered association lists;
`dictGet m k d` is `m.get(k, d)`. -/

def dictGet {α : Type} (m : List (String × α)) (k : String) (dflt : α) : α :=
  match m with
  | [] => dflt
  | (a, b) :: t => if a = k then b else dictGet t k dflt

theorem dictGet_nil {α : Type} (k : String) (d : α) : dictGet [] k d = d := rfl

/-! ## Dosha scorer (`score_dosha_from_answers`)

`totals` is a dict with the three fixed keys `Vata`, `Pitta`, `Kapha`
(modelled as a structure); the question loop accumulates
`w.get(d, 0) * float(answers.get(qid, 3))` into each key. -/

structure QuestionItem where
  id : String
  weights : List (String × ℚ)

structure DoshaPct where
  vata : ℚ
  pitta : ℚ
  kapha : ℚ
deriving DecidableEq

def dosha_totals (answers : List (String × ℤ)) : List QuestionItem → DoshaPct → DoshaPct
  | [], t => t
  | q :: rest, t =>
      dosha_totals answers rest
        ⟨t.vata + dictGet q.weights "Vata" 0 * ((dictGet answers q.id 3 : ℤ) : ℚ),
         t.pitta + dictGet q.weights "Pitta" 0 * ((dictGet answers q.id 3 : ℤ) : ℚ),
         t.kapha + dictGet q.weights "Kapha" 0 * ((dictGet answers q.id 3 : ℤ) : ℚ)⟩

def score_dosha_from_answers (answers : List (String × ℤ))
    (question_list : List QuestionItem) : DoshaPct :=
  let totals := dosha_totals answers question_list ⟨0, 0, 0⟩
  let s := totals.vata + totals.pitta + totals.kapha
  if s ≤ 0 then ⟨roundTo1 (100/3), roundTo1 (100/3), roundTo1 (100/3)⟩
  else
    ⟨roundTo1 (totals.vata / s * 100),
     roundTo1 (totals.pitta / s * 100),
     roundTo1 (totals.kapha / s * 100)⟩

theorem roundTo1_third : roundTo1 (100/3) = 333/10 := by
  have := roundTo1_eq_low (x := 100/3) (n := 333) (by norm_num) (by norm_num)
  rw [this]
  norm_num

/-- C1: for every answer set and question list the three reported percentages
(one-decimal roundings of `total_d / grand_total * 100`, or `round(100/3, 1)`
each on a non-positive grand total) sum to `100` within the rounding epsilon
`0.15`. -/
theorem claim_c1_percentages_sum_to_100 (answers : List (String × ℤ))
    (question_list : List QuestionItem) :
    |(score_dosha_from_answers answers question_list).vata +
      (score_dosha_from_answers answers question_list).pitta +
      (score_dosha_from_answers answers question_list).kapha - 100| ≤ 3/20 := by
  unfold score_dosha_from_answers
  set t := dosha_totals answers question_list ⟨0, 0, 0⟩ with ht
  by_cases hs : t.vata + t.pitta + t.kapha ≤ 0
  · simp only [hs, if_pos, roundTo1_third]
    rw [abs_le]
    constructor <;> norm_num
  · simp only [hs, if_neg, not_false_iff]
    set s := t.vata + t.pitta + t.kapha with hsdef
    have hs0 : s ≠ 0 := by
      intro h
      exact hs (le_of_eq h)
    have hsum : t.vata / s * 100 + t.pitta / s * 100 + t.kapha / s * 100 = 100 := by
      field_simp
      ring
    have h1 := roundTo1_abs_sub_le (t.vata / s * 100)
    have h2 := roundTo1_abs_sub_le (t.pitta / s * 100)
    have h3 := roundTo1_abs_sub_le (t.kapha / s * 100)
    rw [abs_le] at h1 h2 h3 ⊢
    constructor <;> linarith

theorem roundTo1_hundred : roundTo1 100 = 100 := by
  have := roundTo1_eq_low (x := 100) (n := 1000) (by norm_num) (by norm_num)
  rw [this]
  norm_num

theorem roundTo1_zero : roundTo1 0 = 0 := by
  have := roundTo1_eq_low (x := 0) (n := 0) (by norm_num) (by norm_num)
  rw [this]
  norm_num

theorem dictGet_all_eq {α : Type} (a : List (String × α)) (d : α)
    (h : ∀ p ∈ a, p.2 = d) (k : String) : dictGet a k d = d := by
  induction a with
  | nil => rfl
  | cons p t ih =>
    obtain ⟨x, y⟩ := p
    have hy : y = d := h (x, y) (List.mem_cons_self _ _)
    simp only [dictGet]
    split
    · exact hy
    · exact ih (fun q hq => h q (List.mem_cons_of_mem _ hq))

theorem dosha_totals_of_all_three (a : List (String × ℤ)) (h : ∀ p ∈ a, p.2 = 3) :
    ∀ (l : List QuestionItem) (t : DoshaPct),
      dosha_totals a l t = dosha_totals [] l t := by
  intro l
  induction l with
  | nil => intro t; rfl
  | cons q rest ih =>
    intro t
    simp only [dosha_totals, dictGet_all_eq a 3 h q.id, dictGet_nil]
    exact ih _

/-- C10: a question id absent from the answer set contributes the neutral
Likert value `3`; hence the empty answer set scores identically to answering
`3` on every question of the list. -/
theorem claim_c10_missing_answers_default_to_three (question_list : List QuestionItem) :
    score_dosha_from_answers [] question_list =
      score_dosha_from_answers (question_list.map (fun q => (q.id, (3 : ℤ))))
        question_list := by
  have hall : ∀ p ∈ question_list.map (fun q => (q.id, (3 : ℤ))), p.2 = 3 := by
    intro p hp
    rcases List.mem_map.mp hp with ⟨q, _, rfl⟩
    rfl
  unfold score_dosha_from_answers
  rw [dosha_totals_of_all_three _ hall]

theorem dosha_totals_of_zero_weights (a : List (String × ℤ)) :
    ∀ (l : List QuestionItem),
      (∀ q ∈ l, dictGet q.weights "Vata" 0 = 0 ∧ dictGet q.weights "Pitta" 0 = 0 ∧
        dictGet q.weights "Kapha" 0 = 0) →
      ∀ t : DoshaPct, dosha_totals a l t = t := by
  intro l
  induction l with
  | nil => intro _ t; rfl
  | cons q rest ih =>
    intro h t
    obtain ⟨hv, hp, hk⟩ := h q (List.mem_cons_self _ _)
    simp only [dosha_totals, hv, hp, hk, zero_mul, add_zero]
    exact ih (fun q' hq' => h q' (List.mem_cons_of_mem _ hq')) t

/-- C2 (amended): a question list whose weight tables give `0` to all three
categories yields the equal split `{33.3, 33.3, 33.3}` for every answer set
(in particular the empty one); an empty answer set alone does not suffice. -/
theorem claim_c2_amended_zero_weights_give_equal_split
    (question_list : List QuestionItem) (answers : List (String × ℤ))
    (h : ∀ q ∈ question_list, dictGet q.weights "Vata" 0 = 0 ∧
      dictGet q.weights "Pitta" 0 = 0 ∧ dictGet q.weights "Kapha" 0 = 0) :
    score_dosha_from_answers answers question_list = ⟨333/10, 333/10, 333/10⟩ := by
  unfold score_dosha_from_answers
  rw [dosha_totals_of_zero_weights answers question_list h]
  norm_num [roundTo1_third]

theorem claim_c2_amended_zero_weights_give_equal_split_witness :
    score_dosha_from_answers [] [⟨"q1", []⟩] = ⟨333/10, 333/10, 333/10⟩ :=
  claim_c2_amended_zero_weights_give_equal_split [⟨"q1", []⟩] []
    (by intro q hq; simp only [List.mem_singleton] at hq; subst hq
        exact ⟨rfl, rfl, rfl⟩)

/-- C2 fails as stated: on the empty answer set over a question list with a
positive-weight question, every missing answer defaults to `3`, the grand
total is positive, and the result is `{Vata: 100.0, Pitta: 0.0, Kapha: 0.0}`,
not the equal split. -/
theorem claim_c2_counterexample :
    score_dosha_from_answers [] [⟨"q1", [("Vata", 1)]⟩] ≠ ⟨333/10, 333/10, 333/10⟩ := by
  have hv : score_dosha_from_answers [] [⟨"q1", [("Vata", 1)]⟩] = ⟨100, 0, 0⟩ := by
    unfold score_dosha_from_answers
    simp +decide only [dosha_totals, dictGet]
    norm_num [roundTo1_hundred, roundTo1_zero]
  rw [hv]
  intro h
  rw [DoshaPct.mk.injEq] at h
  norm_num at h

/-! ## Psychometric scorer (`psychometric_tipiscale`)

The Python body reads the ten paired answers inside a `try` block, in the
order `E1, E6, A1, A6, C1, C6, N1, N6, O1, O6`; a `KeyError` on any of them
(modelled as a `none` lookup) yields the neutral-50 default for all five
axes.  Each axis is a pair average on the 1–7 scale rescaled to 0–100 and
rounded to one decimal. -/

def lookupOpt {α : Type} (m : List (String × α)) (k : String) : Option α :=
  match m with
  | [] => none
  | (a, b) :: t => if a = k then some b else lookupOpt t k

theorem lookupOpt_mem {α : Type} {m : List (String × α)} {k : String} {v : α}
    (h : lookupOpt m k = some v) : (k, v) ∈ m := by
  induction m with
  | nil => cases h
  | cons p t ih =>
    obtain ⟨a, b⟩ := p
    simp only [lookupOpt] at h
    split at h
    · next heq =>
      subst heq
      injection h with h2
      subst h2
      exact List.mem_cons_self _ _
    · exact List.mem_cons_of_mem _ (ih h)

structure PsychPct where
  extraversion : ℚ
  agreeableness : ℚ
  conscientiousness : ℚ
  emotionality : ℚ
  openness : ℚ
deriving DecidableEq

def psychometric_tipiscale (answers : List (String × ℤ)) : PsychPct :=
  match lookupOpt answers "E1", lookupOpt answers "E6",
        lookupOpt answers "A1", lookupOpt answers "A6",
        lookupOpt answers "C1", lookupOpt answers "C6",
        lookupOpt answers "N1", lookupOpt answers "N6",
        lookupOpt answers "O1", lookupOpt answers "O6" with
  | some e1, some e6, some a1, some a6, some c1, some c6,
      some n1, some n6, some o1, some o6 =>
    -- ext = (E1 + (8 - E6)) / 2, agr = ((8 - A1) + A6) / 2, and so on;
    -- each axis reported as round((raw - 1) / 6 * 100, 1)
    ⟨roundTo1 ((((e1 : ℚ) + (8 - (e6 : ℚ))) / 2 - 1) / 6 * 100),
     roundTo1 ((((8 - (a1 : ℚ)) + (a6 : ℚ)) / 2 - 1) / 6 * 100),
     roundTo1 ((((c1 : ℚ) + (8 - (c6 : ℚ))) / 2 - 1) / 6 * 100),
     roundTo1 ((((n1 : ℚ) + (8 - (n6 : ℚ))) / 2 - 1) / 6 * 100),
     roundTo1 ((((o1 : ℚ) + (8 - (o6 : ℚ))) / 2 - 1) / 6 * 100)⟩
  | _, _, _, _, _, _, _, _, _, _ => ⟨50, 50, 50, 50, 50⟩

theorem roundTo1_axis_bounds {v : ℚ} (h1 : 1 ≤ v) (h7 : v ≤ 7) :
    0 ≤ roundTo1 ((v - 1) / 6 * 100) ∧ roundTo1 ((v - 1) / 6 * 100) ≤ 100 :=
  ⟨roundTo1_nonneg (by linarith), roundTo1_le_hundred (by linarith)⟩

/-- C6: whenever every value present in the answer mapping is an integer in
the 1–7 Likert range (ids may be absent), all five axis percentages returned
by `psychometric_tipiscale` lie within `[0, 100]`. -/
theorem claim_c6_axes_within_bounds (answers : List (String × ℤ))
    (h : ∀ p ∈ answers, 1 ≤ p.2 ∧ p.2 ≤ 7) :
    (0 ≤ (psychometric_tipiscale answers).extraversion ∧
      (psychometric_tipiscale answers).extraversion ≤ 100) ∧
    (0 ≤ (psychometric_tipiscale answers).agreeableness ∧
      (psychometric_tipiscale answers).agreeableness ≤ 100) ∧
    (0 ≤ (psychometric_tipiscale answers).conscientiousness ∧
      (psychometric_tipiscale answers).conscientiousness ≤ 100) ∧
    (0 ≤ (psychometric_tipiscale answers).emotionality ∧
      (psychometric_tipiscale answers).emotionality ≤ 100) ∧
    (0 ≤ (psychometric_tipiscale answers).openness ∧
      (psychometric_tipiscale answers).openness ≤ 100) := by
  unfold psychometric_tipiscale
  split
  · next e1 e6 a1 a6 c1 c6 n1 n6 o1 o6 h1 h2 h3 h4 h5 h6 h7 h8 h9 h10 =>
    have b1 := h _ (lookupOpt_mem h1)
    have b2 := h _ (lookupOpt_mem h2)
    have b3 := h _ (lookupOpt_mem h3)
    have b4 := h _ (lookupOpt_mem h4)
    have b5 := h _ (lookupOpt_mem h5)
    have b6 := h _ (lookupOpt_mem h6)
    have b7 := h _ (lookupOpt_mem h7)
    have b8 := h _ (lookupOpt_mem h8)
    have b9 := h _ (lookupOpt_mem h9)
    have b10 := h _ (lookupOpt_mem h10)
    simp only at b1 b2 b3 b4 b5 b6 b7 b8 b9 b10
    have c1' : (1 : ℚ) ≤ (e1 : ℚ) ∧ (e1 : ℚ) ≤ 7 := by exact_mod_cast b1
    have c2' : (1 : ℚ) ≤ (e6 : ℚ) ∧ (e6 : ℚ) ≤ 7 := by exact_mod_cast b2
    have c3' : (1 : ℚ) ≤ (a1 : ℚ) ∧ (a1 : ℚ) ≤ 7 := by exact_mod_cast b3
    have c4' : (1 : ℚ) ≤ (a6 : ℚ) ∧ (a6 : ℚ) ≤ 7 := by exact_mod_cast b4
    have c5' : (1 : ℚ) ≤ (c1 : ℚ) ∧ (c1 : ℚ) ≤ 7 := by exact_mod_cast b5
    have c6' : (1 : ℚ) ≤ (c6 : ℚ) ∧ (c6 : ℚ) ≤ 7 := by exact_mod_cast b6
    have c7' : (1 : ℚ) ≤ (n1 : ℚ) ∧ (n1 : ℚ) ≤ 7 := by exact_mod_cast b7
    have c8' : (1 : ℚ) ≤ (n6 : ℚ) ∧ (n6 : ℚ) ≤ 7 := by exact_mod_cast b8
    have c9' : (1 : ℚ) ≤ (o1 : ℚ) ∧ (o1 : ℚ) ≤ 7 := by exact_mod_cast b9
    have c10' : (1 : ℚ) ≤ (o6 : ℚ) ∧ (o6 : ℚ) ≤ 7 := by exact_mod_cast b10
    refine ⟨?_, ?_, ?_, ?_, ?_⟩ <;>
      (apply roundTo1_axis_bounds <;> linarith
        [c1'.1, c1'.2, c2'.1, c2'.2, c3'.1, c3'.2, c4'.1, c4'.2, c5'.1, c5'.2,
         c6'.1, c6'.2, c7'.1, c7'.2, c8'.1, c8'.2, c9'.1, c9'.2, c10'.1, c10'.2])
  · norm_num

/-- C7: if any of the ten expected psychometric question ids is absent from
the answer mapping, the neutral-50 default is returned for all five axes. -/
theorem claim_c7_missing_id_gives_neutral_default (answers : List (String × ℤ))
    (h : lookupOpt answers "E1" = none ∨ lookupOpt answers "E6" = none ∨
      lookupOpt answers "A1" = none ∨ lookupOpt answers "A6" = none ∨
      lookupOpt answers "C1" = none ∨ lookupOpt answers "C6" = none ∨
      lookupOpt answers "N1" = none ∨ lookupOpt answers "N6" = none ∨
      lookupOpt answers "O1" = none ∨ lookupOpt answers "O6" = none) :
    psychometric_tipiscale answers = ⟨50, 50, 50, 50, 50⟩ := by
  unfold psychometric_tipiscale
  split
  · rcases h with h | h | h | h | h | h | h | h | h | h <;> simp_all
  · rfl

theorem claim_c7_missing_id_gives_neutral_default_witness :
    psychometric_tipiscale [("E1", 4)] = ⟨50, 50, 50, 50, 50⟩ :=
  claim_c7_missing_id_gives_neutral_default [("E1", 4)] (Or.inr (Or.inl rfl))

theorem claim_c6_axes_within_bounds_witness :
    (0 ≤ (psychometric_tipiscale [("E1", 4), ("E6", 4), ("A1", 4), ("A6", 4),
        ("C1", 4), ("C6", 4), ("N1", 4), ("N6", 4), ("O1", 4), ("O6", 4)]).extraversion ∧
      (psychometric_tipiscale [("E1", 4), ("E6", 4), ("A1", 4), ("A6", 4),
        ("C1", 4), ("C6", 4), ("N1", 4), ("N6", 4), ("O1", 4), ("O6", 4)]).extraversion ≤ 100) ∧
    (0 ≤ (psychometric_tipiscale [("E1", 4), ("E6", 4), ("A1", 4), ("A6", 4),
        ("C1", 4), ("C6", 4), ("N1", 4), ("N6", 4), ("O1", 4), ("O6", 4)]).agreeableness ∧
      (psychometric_tipiscale [("E1", 4), ("E6", 4), ("A1", 4), ("A6", 4),
        ("C1", 4), ("C6", 4), ("N1", 4), ("N6", 4), ("O1", 4), ("O6", 4)]).agreeableness ≤ 100) ∧
    (0 ≤ (psychometric_tipiscale [("E1", 4), ("E6", 4), ("A1", 4), ("A6", 4),
        ("C1", 4), ("C6", 4), ("N1", 4), ("N6", 4), ("O1", 4), ("O6", 4)]).conscientiousness ∧
      (psychometric_tipiscale [("E1", 4), ("E6", 4), ("A1", 4), ("A6", 4),
        ("C1", 4), ("C6", 4), ("N1", 4), ("N6", 4), ("O1", 4), ("O6", 4)]).conscientiousness ≤ 100) ∧
    (0 ≤ (psychometric_tipiscale [("E1", 4), ("E6", 4), ("A1", 4), ("A6", 4),
        ("C1", 4), ("C6", 4), ("N1", 4), ("N6", 4), ("O1", 4), ("O6", 4)]).emotionality ∧
      (psychometric_tipiscale [("E1", 4), ("E6", 4), ("A1", 4), ("A6", 4),
        ("C1", 4), ("C6", 4), ("N1", 4), ("N6", 4), ("O1", 4), ("O6", 4)]).emotionality ≤ 100) ∧
    (0 ≤ (psychometric_tipiscale [("E1", 4), ("E6", 4), ("A1", 4), ("A6", 4),
        ("C1", 4), ("C6", 4), ("N1", 4), ("N6", 4), ("O1", 4), ("O6", 4)]).openness ∧
      (psychometric_tipiscale [("E1", 4), ("E6", 4), ("A1", 4), ("A6", 4),
        ("C1", 4), ("C6", 4), ("N1", 4), ("N6", 4), ("O1", 4), ("O6", 4)]).openness ≤ 100) :=
  claim_c6_axes_within_bounds _ (by intro p hp; fin_cases hp <;> norm_num)

/-! ## Dominant category selection

All three recommendation engines compute
`dom = max(dosha_pct, key=dosha_pct.get)`.  The Python `max` over the keys of
an insertion-ordered mapping returns the first key attaining the maximal
value, replacing the running maximum only on strictly greater values; on an
empty mapping it raises `ValueError`.  `maxPair p rest` is that fold over
the non-empty association list `p :: rest`. -/

def maxPair : (String × ℚ) → List (String × ℚ) → (String × ℚ)
  | p, [] => p
  | p, q :: rest => maxPair (if p.2 < q.2 then q else p) rest

theorem le_maxPair_self : ∀ (rest : List (String × ℚ)) (p : String × ℚ),
    p.2 ≤ (maxPair p rest).2
  | [], _ => le_refl _
  | q :: rest, p => by
    simp only [maxPair]
    by_cases h : p.2 < q.2
    · rw [if_pos h]
      exact le_trans (le_of_lt h) (le_maxPair_self rest q)
    · rw [if_neg h]
      exact le_maxPair_self rest p

theorem maxPair_is_ub : ∀ (rest : List (String × ℚ)) (p x : String × ℚ),
    x ∈ p :: rest → x.2 ≤ (maxPair p rest).2
  | [], p, x, hx => by
    rcases List.mem_singleton.mp hx with rfl
    exact le_refl _
  | q :: rest, p, x, hx => by
    simp only [maxPair]
    by_cases h : p.2 < q.2
    · rw [if_pos h]
      rcases List.mem_cons.mp hx with rfl | hx'
      · exact le_trans (le_of_lt h) (le_maxPair_self rest q)
      · exact maxPair_is_ub rest q x hx'
    · rw [if_neg h]
      rcases List.mem_cons.mp hx with rfl | hx'
      · exact le_maxPair_self rest x
      · rcases List.mem_cons.mp hx' with rfl | hx''
        · exact le_trans (not_lt.mp h) (le_maxPair_self rest p)
        · exact maxPair_is_ub rest p x (List.mem_cons_of_mem _ hx'')

theorem maxPair_mem : ∀ (rest : List (String × ℚ)) (p : String × ℚ),
    maxPair p rest ∈ p :: rest
  | [], p => List.mem_singleton.mpr rfl
  | q :: rest, p => by
    simp only [maxPair]
    by_cases h : p.2 < q.2
    · rw [if_pos h]
      rcases List.mem_cons.mp (maxPair_mem rest q) with h' | h'
      · rw [h']
        exact List.mem_cons_of_mem _ (List.mem_cons_self _ _)
      · exact List.mem_cons_of_mem _ (List.mem_cons_of_mem _ h')
    · rw [if_neg h]
      rcases List.mem_cons.mp (maxPair_mem rest p) with h' | h'
      · rw [h']
        exact List.mem_cons_self _ _
      · exact List.mem_cons_of_mem _ (List.mem_cons_of_mem _ h')

theorem maxPair_eq_self_of_le : ∀ (rest : List (String × ℚ)) (p : String × ℚ),
    (maxPair p rest).2 ≤ p.2 → maxPair p rest = p
  | [], _, _ => rfl
  | q :: rest, p, h => by
    simp only [maxPair] at h ⊢
    by_cases hpq : p.2 < q.2
    · rw [if_pos hpq] at h ⊢
      exfalso
      have := le_maxPair_self rest q
      linarith
    · rw [if_neg hpq] at h ⊢
      exact maxPair_eq_self_of_le rest p h

theorem find?_maxPair : ∀ (rest : List (String × ℚ)) (p : String × ℚ),
    (p :: rest).find? (fun x => decide ((maxPair p rest).2 ≤ x.2)) =
      some (maxPair p rest)
  | [], p => by
    simp [maxPair]
  | q :: rest, p => by
    by_cases hpq : p.2 < q.2
    · have hm : maxPair p (q :: rest) = maxPair q rest := by
        simp only [maxPair, if_pos hpq]
      rw [hm]
      have hp : ¬ ((maxPair q rest).2 ≤ p.2) := by
        have := le_maxPair_self rest q
        push_neg
        linarith
      rw [List.find?_cons_of_neg _ (by simpa using hp)]
      exact find?_maxPair rest q
    · have hm : maxPair p (q :: rest) = maxPair p rest := by
        simp only [maxPair, if_neg hpq]
      rw [hm]
      by_cases hmp : (maxPair p rest).2 ≤ p.2
      · rw [List.find?_cons_of_pos _ (by simpa using hmp)]
        rw [maxPair_eq_self_of_le rest p hmp]
      · have hplt : p.2 < (maxPair p rest).2 := not_le.mp hmp
        have hq : ¬ ((maxPair p rest).2 ≤ q.2) := by
          have := not_lt.mp hpq
          push_neg
          linarith
        rw [List.find?_cons_of_neg _ (by simpa using hmp)]
        rw [List.find?_cons_of_neg _ (by simpa using hq)]
        have ih := find?_maxPair rest p
        rw [List.find?_cons_of_neg _ (by simpa using hmp)] at ih
        exact ih

theorem find?_congr_mem {α : Type} : ∀ (l : List α) (f g : α → Bool),
    (∀ x ∈ l, f x = g x) → l.find? f = l.find? g
  | [], _, _, _ => rfl
  | a :: l, f, g, h => by
    have ha := h a (List.mem_cons_self _ _)
    by_cases hfa : f a = true
    · rw [List.find?_cons_of_pos _ hfa, List.find?_cons_of_pos _ (by rw [← ha]; exact hfa)]
    · rw [List.find?_cons_of_neg _ hfa, List.find?_cons_of_neg _ (by rw [← ha]; exact hfa)]
      exact find?_congr_mem l f g (fun x hx => h x (List.mem_cons_of_mem _ hx))

/-- Specification-side predicate `isMaxIn l x`: `x` attains the maximal value among the entries of `l`
(the specification-side description of "the single highest-valued
category"). -/
def isMaxIn (l : List (String × ℚ)) (x : String × ℚ) : Bool :=
  l.all (fun q => decide (q.2 ≤ x.2))

theorem isMaxIn_eq_decide (p : String × ℚ) (rest : List (String × ℚ))
    (x : String × ℚ) (_hx : x ∈ p :: rest) :
    isMaxIn (p :: rest) x = decide ((maxPair p rest).2 ≤ x.2) := by
  unfold isMaxIn
  by_cases h : (maxPair p rest).2 ≤ x.2
  · rw [decide_eq_true h]
    apply List.all_eq_true.mpr
    intro q hq
    simp only [decide_eq_true_eq]
    exact le_trans (maxPair_is_ub rest p q hq) h
  · rw [decide_eq_false h]
    apply Bool.eq_false_iff.mpr
    intro htrue
    rw [List.all_eq_true] at htrue
    exact h (by simpa using htrue _ (maxPair_mem rest p))

/-- The Python first-max `max` with a key function agrees with "first entry attaining
the maximum": the fold `maxPair` is the first list entry satisfying
`isMaxIn`. -/
theorem dominant_is_first_max (p : String × ℚ) (rest : List (String × ℚ)) :
    (p :: rest).find? (isMaxIn (p :: rest)) = some (maxPair p rest) := by
  rw [find?_congr_mem (p :: rest) (isMaxIn (p :: rest))
      (fun x => decide ((maxPair p rest).2 ≤ x.2))
      (fun x hx => isMaxIn_eq_decide p rest x hx)]
  exact find?_maxPair rest p

/-! ## Recommendation engines

`recommend_health`, `recommend_career` and `recommend_relationship` all
start with `dom = max(dosha_pct, key=dosha_pct.get)`, which raises
`ValueError` on an empty mapping — modelled as `none`. -/

structure Config where
  career_rules : List (String × List String)
  mild : ℚ
  moderate : ℚ
  severe : ℚ

/-- The static mapping tables of `DEFAULT_CFG`: the three career-role lists
and the `dosha_thresholds` `{mild: 55, moderate: 70, severe: 85}`. -/
def DEFAULT_CFG : Config :=
  ⟨[("Vata", ["Writer", "Designer", "Consultant - Creative", "Researcher"]),
    ("Pitta", ["Clinician", "Analyst", "Manager", "Engineer"]),
    ("Kapha", ["Teacher", "Counselor", "Hospitality", "HR", "Agriculture"])],
   55, 70, 85⟩

/-- The `if score >= severe / elif >= moderate / elif >= mild / else` chain of
`recommend_health`. -/
def sevLabel (cfg : Config) (score : ℚ) : String :=
  if cfg.severe ≤ score then "severe"
  else if cfg.moderate ≤ score then "moderate"
  else if cfg.mild ≤ score then "mild"
  else "balanced"

def vataDiet : String :=
  "Warm, cooked meals; include healthy oils; regular meal timings; avoid iced drinks first thing."

def vataLifestyle : String :=
  "Daily warm oil massage (Abhyanga) 5–10 min; grounding morning routine; consistent sleep schedule."

def vataHerbs : String :=
  "Ashwagandha (under clinician guidance), Bala for strength."

def pittaDiet : String :=
  "Cooling foods; reduce spicy, fried and fermented foods; include bitter greens."

def pittaLifestyle : String :=
  "Avoid midday heat; cooling pranayama; calm, regular breaks."

def pittaHerbs : String :=
  "Amla, Guduchi (clinician review)."

def kaphaDiet : String :=
  "Light, warm, slightly astringent foods; reduce dairy & sweets."

def kaphaLifestyle : String :=
  "Stimulating exercise 30–60 min daily; vary routine; dry massage (udvartana)."

def kaphaHerbs : String :=
  "Trikatu, Guggulu (clinician supervision)."

structure HealthRec where
  diet : List String
  lifestyle : List String
  herbs : List String
  severity : List (String × String)

def recommend_health (dosha_pct vikriti_pct : List (String × ℚ))
    (cfg : Config) : Option HealthRec :=
  match dosha_pct with
  | [] => none
  | p :: rest =>
    let dom := (maxPair p rest).1
    let severity := (p :: rest).map
      (fun kv => (kv.1, sevLabel cfg (roundTo1 ((kv.2 + dictGet vikriti_pct kv.1 0) / 2))))
    let rec0 : HealthRec := ⟨[], [], [], severity⟩
    let rec1 := if dom = "Vata" then
        { rec0 with diet := [vataDiet], lifestyle := [vataLifestyle], herbs := [vataHerbs] }
      else rec0
    let rec2 := if dom = "Pitta" then
        { rec1 with diet := [pittaDiet], lifestyle := [pittaLifestyle], herbs := [pittaHerbs] }
      else rec1
    let rec3 := if dom = "Kapha" then
        { rec2 with diet := [kaphaDiet], lifestyle := [kaphaLifestyle], herbs := [kaphaHerbs] }
      else rec2
    some rec3

structure CareerRec where
  role : String
  score : ℤ
  reason : String

/-- Python substring test `sub in s`. -/
def strContains (s sub : String) : Bool :=
  sub == "" || (s.splitOn sub).length != 1

/-- Stable insertion step for descending sort by score
(`sorted(recs, key=lambda x: -x["score"])`). -/
def insertByScore (x : CareerRec) : List CareerRec → List CareerRec
  | [] => [x]
  | y :: t => if x.score < y.score then y :: insertByScore x t else x :: y :: t

def sortByScoreDesc : List CareerRec → List CareerRec
  | [] => []
  | x :: t => insertByScore x (sortByScoreDesc t)

def recommend_career (dosha_percent psycho_pct : List (String × ℚ))
    (cfg : Config) : Option (List CareerRec) :=
  match dosha_percent with
  | [] => none
  | p :: rest =>
    let dom := (maxPair p rest).1
    let base := dictGet cfg.career_rules dom []
    let recs := base.map (fun r =>
      let s1 : ℤ := 50
      let s2 := if 65 < dictGet psycho_pct "Openness" 50 ∧
          (strContains r "Research" ∨ strContains r "Creative" ∨ strContains r "Writer")
        then s1 + 10 else s1
      let s3 := if 65 < dictGet psycho_pct "Conscientiousness" 50 ∧
          (strContains r "Manager" ∨ strContains r "Engineer")
        then s2 + 8 else s2
      let s4 := if 60 < dictGet psycho_pct "Extraversion" 50 ∧
          (strContains r "Clinician" ∨ strContains r "Teacher")
        then s3 + 6 else s3
      CareerRec.mk r s4 ("Matches dominant " ++ dom ++ " + personality cues."))
    let recs2 := if 70 < dictGet psycho_pct "Openness" 50 ∧
        ¬ (recs.any (fun x => strContains x.role "Research"))
      then recs ++ [⟨"Research & Innovation", 65, "High openness suggests research fit."⟩]
      else recs
    some (sortByScoreDesc recs2)

def recommend_relationship (dosha_pct psycho_pct : List (String × ℚ)) :
    Option (List (String × String)) :=
  match dosha_pct with
  | [] => none
  | p :: rest =>
    let dom := (maxPair p rest).1
    let t1 : List (String × String) :=
      if dom = "Vata" then
        [("Stability & routines",
          "Vata benefits from grounding, predictable routines; short daily check-ins help.")]
      else []
    let t2 := if dom = "Pitta" then
        t1 ++ [("Cooling communication",
          "Pause before responding and use neutral language during disagreements.")]
      else t1
    let t3 := if dom = "Kapha" then
        t2 ++ [("Introduce small novelty",
          "Gentle new activities reduce inertia and boost engagement.")]
      else t2
    let t4 := if dictGet psycho_pct "Agreeableness" 50 < 40 then
        t3 ++ [("Reflective listening",
          "Summarize what partner said before giving your view.")]
      else t3
    let t5 := if 60 < dictGet psycho_pct "Emotionality" 50 then
        t4 ++ [("Emotion regulation",
          "Use 3-minute breathing or journaling before difficult talks.")]
      else t4
    some t5

set_option linter.unusedTactic false in
theorem sevLabel_characterization (s : ℚ) :
    (sevLabel DEFAULT_CFG s = "severe" ↔ 85 ≤ s) ∧
    (sevLabel DEFAULT_CFG s = "moderate" ↔ 70 ≤ s ∧ s < 85) ∧
    (sevLabel DEFAULT_CFG s = "mild" ↔ 55 ≤ s ∧ s < 70) ∧
    (sevLabel DEFAULT_CFG s = "balanced" ↔ s < 55) := by
  simp only [sevLabel, DEFAULT_CFG]
  split_ifs with h85 h70 h55 <;>
    refine ⟨?_, ?_, ?_, ?_⟩ <;> constructor <;> intro hc <;>
      first
        | rfl
        | linarith
        | (exact absurd hc (by decide))
        | (exfalso; linarith)
        | (exact ⟨by linarith, by linarith⟩)

theorem recommend_health_severity (p : String × ℚ) (rest : List (String × ℚ))
    (vikriti_pct : List (String × ℚ)) (cfg : Config) :
    ∃ r : HealthRec, recommend_health (p :: rest) vikriti_pct cfg = some r ∧
      r.severity = (p :: rest).map
        (fun kv => (kv.1, sevLabel cfg (roundTo1 ((kv.2 + dictGet vikriti_pct kv.1 0) / 2)))) := by
  simp only [recommend_health]
  refine ⟨_, rfl, ?_⟩
  split <;> split <;> split <;> rfl

/-- C5: `recommend_health` labels each category `d` of the input distribution
with the severity obtained by comparing the combined score
`round((prakriti[d] + vikriti.get(d, 0)) / 2, 1)` against the static cutoffs:
severe iff `≥ 85`, else moderate iff `≥ 70`, else mild iff `≥ 55`, else
balanced. -/
theorem claim_c5_severity_thresholds (dosha_pct vikriti_pct : List (String × ℚ))
    (k : String) (v : ℚ) (hkv : (k, v) ∈ dosha_pct) :
    ∃ r : HealthRec, recommend_health dosha_pct vikriti_pct DEFAULT_CFG = some r ∧
      (k, sevLabel DEFAULT_CFG (roundTo1 ((v + dictGet vikriti_pct k 0) / 2))) ∈ r.severity ∧
      (∀ s : ℚ, (sevLabel DEFAULT_CFG s = "severe" ↔ 85 ≤ s) ∧
        (sevLabel DEFAULT_CFG s = "moderate" ↔ 70 ≤ s ∧ s < 85) ∧
        (sevLabel DEFAULT_CFG s = "mild" ↔ 55 ≤ s ∧ s < 70) ∧
        (sevLabel DEFAULT_CFG s = "balanced" ↔ s < 55)) := by
  cases dosha_pct with
  | nil => cases hkv
  | cons p rest =>
    obtain ⟨r, hr, hsev⟩ := recommend_health_severity p rest vikriti_pct DEFAULT_CFG
    refine ⟨r, hr, ?_, fun s => sevLabel_characterization s⟩
    rw [hsev]
    exact List.mem_map_of_mem _ hkv

theorem claim_c5_severity_thresholds_witness :
    ∃ r : HealthRec, recommend_health [("Vata", 70)] [] DEFAULT_CFG = some r ∧
      ("Vata", sevLabel DEFAULT_CFG (roundTo1 ((70 + dictGet [] "Vata" 0) / 2))) ∈ r.severity ∧
      (∀ s : ℚ, (sevLabel DEFAULT_CFG s = "severe" ↔ 85 ≤ s) ∧
        (sevLabel DEFAULT_CFG s = "moderate" ↔ 70 ≤ s ∧ s < 85) ∧
        (sevLabel DEFAULT_CFG s = "mild" ↔ 55 ≤ s ∧ s < 70) ∧
        (sevLabel DEFAULT_CFG s = "balanced" ↔ s < 55)) :=
  claim_c5_severity_thresholds [("Vata", 70)] [] "Vata" 70 (List.mem_singleton.mpr rfl)

/-- C4: the dominant category is the first entry attaining the maximal value
(`maxPair`, the fold used by all recommendation engines, equals the first
`isMaxIn` entry); concretely, on `{Vata: 70, Pitta: 20, Kapha: 10}` and any
vikriti distribution, `recommend_health` returns exactly the Vata diet,
lifestyle and herb text blocks from the static tables. -/
theorem claim_c4_dominant_and_vata_blocks :
    (∀ (p : String × ℚ) (rest : List (String × ℚ)),
      (p :: rest).find? (isMaxIn (p :: rest)) = some (maxPair p rest)) ∧
    (∀ vikriti_pct : List (String × ℚ),
      (recommend_health [("Vata", 70), ("Pitta", 20), ("Kapha", 10)]
          vikriti_pct DEFAULT_CFG).map (fun r => (r.diet, r.lifestyle, r.herbs)) =
        some ([vataDiet], [vataLifestyle], [vataHerbs])) := by
  refine ⟨dominant_is_first_max, ?_⟩
  intro vik
  have hdom : maxPair ("Vata", (70 : ℚ)) [("Pitta", 20), ("Kapha", 10)] = ("Vata", 70) := by
    simp only [maxPair]
    norm_num
  simp +decide [recommend_health, hdom]

/-- C8 fails as stated: on an empty distribution each recommendation engine
evaluates `max({}, key=...)`, which raises `ValueError` (modelled by `none`)
instead of defaulting to an empty output. -/
theorem claim_c8_counterexample :
    recommend_career [] [] DEFAULT_CFG = none ∧
    recommend_relationship [] [] = none ∧
    recommend_health [] [] DEFAULT_CFG = none :=
  ⟨rfl, rfl, rfl⟩

/-- C8 (amended): on every non-empty dosha distribution the three
recommendation engines return a result (no exception); the empty mapping is
the sole raising input. -/
theorem claim_c8_amended_nonempty_no_raise (dosha_pct vikriti_pct psycho_pct :
    List (String × ℚ)) (cfg : Config) (h : dosha_pct ≠ []) :
    (recommend_career dosha_pct psycho_pct cfg).isSome ∧
    (recommend_relationship dosha_pct psycho_pct).isSome ∧
    (recommend_health dosha_pct vikriti_pct cfg).isSome := by
  cases dosha_pct with
  | nil => exact absurd rfl h
  | cons p rest => exact ⟨rfl, rfl, rfl⟩

theorem claim_c8_amended_nonempty_no_raise_witness :
    (recommend_career [("Vata", 50)] [] DEFAULT_CFG).isSome ∧
    (recommend_relationship [("Vata", 50)] []).isSome ∧
    (recommend_health [("Vata", 50)] [] DEFAULT_CFG).isSome :=
  claim_c8_amended_nonempty_no_raise [("Vata", 50)] [] [] DEFAULT_CFG
    (by simp)

/-! ## Persistence: default admin seeding and `verify_user`

The database is modelled as the list of rows of the `users` table, in
insertion order.  The password hasher (`pwd_context` from passlib) is an
external library; it is abstracted as a pair of functions `hash`/`verify`
assumed to satisfy the hasher contract `verify p (hash p) = true`. -/

structure UserRow where
  username : String
  display_name : String
  password_hash : String
  role : String

structure DB where
  users : List UserRow

/-- Startup seeding: `SELECT COUNT(1) FROM users`; if the count is `0`,
insert the row `("admin", "Administrator", hash("admin123"), "admin")`. -/
def seed_default_admin (hash : String → String) (db : DB) : DB :=
  if db.users.length = 0 then
    { users := db.users ++ [⟨"admin", "Administrator", hash "admin123", "admin"⟩] }
  else db

/-- Login check `verify_user`: fetch the first row with the given username; absent rows
give `(False, None)`, otherwise `(pwd_context.verify(password, hash),
{display_name, role})` (a verification exception yields `ok = False`, so the
abstracted `verify` is total). -/
def verify_user (verify : String → String → Bool) (db : DB)
    (username password : String) : Bool × Option (String × String) :=
  match db.users.find? (fun u => u.username == username) with
  | none => (false, none)
  | some u => (verify password u.password_hash, some (u.display_name, u.role))

/-- C9: against an empty `users` table exactly one admin row
(`admin`/`admin123`, role `admin`) is seeded and then authenticates
successfully; a non-empty table is left untouched. -/
theorem claim_c9_default_admin_seeding (hash : String → String)
    (verify : String → String → Bool)
    (hcontract : ∀ p, verify p (hash p) = true) (db : DB) :
    (db.users = [] →
      (seed_default_admin hash db).users.length = 1 ∧
      (∃ u : UserRow, (seed_default_admin hash db).users = [u] ∧
        u.username = "admin" ∧ u.role = "admin") ∧
      verify_user verify (seed_default_admin hash db) "admin" "admin123" =
        (true, some ("Administrator", "admin"))) ∧
    (db.users ≠ [] → seed_default_admin hash db = db) := by
  constructor
  · intro hempty
    have hseed : (seed_default_admin hash db).users =
        [⟨"admin", "Administrator", hash "admin123", "admin"⟩] := by
      unfold seed_default_admin
      rw [if_pos (by rw [hempty]; rfl), hempty]
      rfl
    refine ⟨by rw [hseed]; rfl, ⟨_, hseed, rfl, rfl⟩, ?_⟩
    unfold verify_user
    rw [hseed]
    simp only [List.find?]
    rw [show (("admin" : String) == "admin") = true from rfl]
    simp only [Option.some.injEq]
    rw [hcontract "admin123"]
  · intro hne
    unfold seed_default_admin
    rw [if_neg (by simpa using hne)]

theorem claim_c9_default_admin_seeding_witness :
    ((DB.mk []).users = [] →
      (seed_default_admin (fun p => p) (DB.mk [])).users.length = 1 ∧
      (∃ u : UserRow, (seed_default_admin (fun p => p) (DB.mk [])).users = [u] ∧
        u.username = "admin" ∧ u.role = "admin") ∧
      verify_user (fun p h => p == h) (seed_default_admin (fun p => p) (DB.mk []))
          "admin" "admin123" = (true, some ("Administrator", "admin"))) ∧
    ((DB.mk []).users ≠ [] → seed_default_admin (fun p => p) (DB.mk []) = DB.mk []) :=
  claim_c9_default_admin_seeding (fun p => p) (fun p h => p == h)
    (fun p => by simp) (DB.mk [])

/-! ## PDF report: fallback chain of `branded_pdf_report`

`branded_pdf_report` wraps its whole platypus composition in
`try/except`; on any exception it calls `_fallback_canvas_pdf` with a
1200-character traceback snippet.  The fallback draws a simplified canvas
PDF inside its own `try`, and its `except` block draws a minimal error PDF.
ReportLab itself is an external library: the outcome of the platypus build
is abstracted as an `Except` parameter (`primary`), the possibility that
the canvas body raises as a parameter `bodyFail` carrying `str(e)`, and the
canvas as a list of drawing operations serialised after a `%PDF` header. -/

/-- Python `str.split()` (split on whitespace, dropping empty fields),
written structurally so that it kernel-evaluates. -/
def splitWordsAux : List Char → List Char → List String
  | [], cur => if cur = [] then [] else [String.mk cur.reverse]
  | c :: rest, cur =>
    if c.isWhitespace then
      if cur = [] then splitWordsAux rest []
      else String.mk cur.reverse :: splitWordsAux rest []
    else splitWordsAux rest (c :: cur)

def splitWords (s : String) : List String := splitWordsAux s.data []

/-- Greedy line filler of `_wrap_text_simple`: words are packed while
`len(cur) + len(w) + 1 <= chars_per_line`, else the current line is flushed;
a non-empty trailing line is appended. -/
def wrapAux (cpl : Nat) : List String → List String → String → List String
  | [], lines, cur => if cur = "" then lines else lines ++ [cur]
  | w :: ws, lines, cur =>
    if cur.length + w.length + 1 ≤ cpl then
      wrapAux cpl ws lines (cur ++ (if cur = "" then "" else " ") ++ w)
    else wrapAux cpl ws (lines ++ [cur]) w

def wrap_text_simple (text : String) (chars_per_line : Nat) : List String :=
  wrapAux chars_per_line (splitWords text) [] ""

def BRAND_clinic_name : String := "Kakunje Wellness"

def BRAND_phone : String := "+91-9483697676"

/-- ReportLab `mm` (72 / 25.4 points). -/
def mmQ : ℚ := 360/127

def A4w : ℚ := 210 * mmQ

def A4h : ℚ := 297 * mmQ

def leftMargin : ℚ := 18 * mmQ

def topMargin : ℚ := A4h - 18 * mmQ

inductive DrawOp where
  | text (x y : ℚ) (s : String)
  | image (path : String) (x y : ℚ)
  | line (x1 y1 x2 y2 : ℚ)
  | setFont (name : String) (size : ℚ)
  | setStroke (c : String)
  | showPage
deriving DecidableEq

/-- Abstract byte serialisation of one canvas operation (at least one byte
per op). -/
def encodeOp : DrawOp → List Nat
  | .text _ _ s => 1 :: s.data.map Char.toNat
  | .image p _ _ => 2 :: p.data.map Char.toNat
  | .line _ _ _ _ => [3]
  | .setFont n _ => 4 :: n.data.map Char.toNat
  | .setStroke c => 5 :: c.data.map Char.toNat
  | .showPage => [6]

/-- Header bytes of a PDF file: every saved canvas buffer starts with these. -/
def pdfHeader : List Nat := [37, 80, 68, 70]

def canvasSave (ops : List DrawOp) : List Nat := pdfHeader ++ (ops.map encodeOp).flatten

theorem canvasSave_ne_nil (ops : List DrawOp) : canvasSave ops ≠ [] := by
  simp [canvasSave, pdfHeader]

structure Wow where
  plan : String
  habit_stack : String

structure ReportInput where
  patient : List (String × String)
  prakriti_pct : List (String × ℚ)
  vikriti_pct : List (String × ℚ)
  psych_pct : List (String × ℚ)
  career_recs : List CareerRec
  rel_tips : List (String × String)
  health_recs : Option HealthRec
  include_appendix : Bool
  report_id : Option String
  wow : Option Wow
  hasLogo : Bool
  show_footer_logo : Bool
  today : String

/-- One `drawString`-then-page-break loop of the canvas fallback: draw each
line at `x`, decrement `y` by `dy`, and on `y < thresh` emit `showPage` and
reset `y` to the top margin. -/
def pagedDraw (x dy thresh top : ℚ) : List String → ℚ → (ℚ × List DrawOp)
  | [], y => (y, [])
  | s :: rest, y =>
    let y1 := y - dy
    let next := if y1 < thresh then (top, [DrawOp.showPage]) else (y1, ([] : List DrawOp))
    let tail := pagedDraw x dy thresh top rest next.1
    (tail.1, DrawOp.text x y s :: (next.2 ++ tail.2))

/-- Percentage line for a category: key, colon, value, percent sign
(the float formatting is abstracted by `toString`). -/
def fmtPct (kv : String × ℚ) : String := kv.1 ++ ": " ++ toString kv.2 ++ " %"

def careerLine (cr : CareerRec) : String :=
  "- " ++ cr.role ++ " (score " ++ toString cr.score ++ ")"

/-- Drawing operations of the `try` body of `_fallback_canvas_pdf`:
logo, clinic name, patient/date line, the Prakriti / Vikriti / top-10
career-recommendation loops (page threshold 60mm), the optional appendix
(threshold 40mm), the optional engine-error page (threshold 30mm, wrap
width 120) and the footer. -/
def fallbackOps (inp : ReportInput) (error_text : Option String) : List DrawOp :=
  let y0 := topMargin
  let logoOps := if inp.hasLogo then [DrawOp.image "logo.png" leftMargin (y0 - 36 * mmQ)] else []
  let headOps := [DrawOp.setFont "Helvetica-Bold" 13,
    DrawOp.text leftMargin (y0 - 6) BRAND_clinic_name]
  let y1 := y0 - 24
  let patOps := [DrawOp.setFont "Helvetica" 9,
    DrawOp.text leftMargin y1 ("Patient: " ++ dictGet inp.patient "name" ""),
    DrawOp.text (leftMargin + 220) y1 ("Date: " ++ inp.today)]
  let y2 := y1 - 16
  let prakHead := [DrawOp.setFont "Helvetica-Bold" 10, DrawOp.text leftMargin y2 "Prakriti:"]
  let y3 := y2 - 12
  let fontOps := [DrawOp.setFont "Helvetica" 9]
  let prak := pagedDraw (leftMargin + 6) 10 (60 * mmQ) topMargin (inp.prakriti_pct.map fmtPct) y3
  let vikHead := [DrawOp.text leftMargin prak.1 "Vikriti:"]
  let vik := pagedDraw (leftMargin + 6) 10 (60 * mmQ) topMargin (inp.vikriti_pct.map fmtPct) (prak.1 - 12)
  let recHead := [DrawOp.text leftMargin vik.1 "Top recommendations:"]
  let recs := pagedDraw (leftMargin + 6) 10 (60 * mmQ) topMargin
    ((inp.career_recs.take 10).map careerLine) (vik.1 - 12)
  let apxOps :=
    match inp.include_appendix, inp.wow with
    | true, some w =>
      let plan := pagedDraw leftMargin 10 (40 * mmQ) topMargin
        (w.plan.splitOn "\n") (topMargin - 14)
      let habit := pagedDraw leftMargin 10 (40 * mmQ) topMargin
        (w.habit_stack.splitOn "\n") plan.1
      [DrawOp.showPage, DrawOp.setFont "Helvetica-Bold" 12,
        DrawOp.text leftMargin topMargin "APPENDIX — Transformation Plan",
        DrawOp.setFont "Helvetica" 9] ++ plan.2 ++ habit.2
    | _, _ => []
  let errOps :=
    match error_text with
    | some et =>
      let lns := pagedDraw leftMargin 8 (30 * mmQ) topMargin
        (wrap_text_simple et 120) (topMargin - 14)
      [DrawOp.showPage, DrawOp.setFont "Helvetica-Bold" 10,
        DrawOp.text leftMargin topMargin "Report engine error (short):",
        DrawOp.setFont "Helvetica" 8] ++ lns.2
    | none => []
  let footOps :=
    [DrawOp.setStroke "lightgrey",
      DrawOp.line (18 * mmQ) (18 * mmQ + 8) (A4w - 18 * mmQ) (18 * mmQ + 8)] ++
    (if inp.show_footer_logo ∧ inp.hasLogo then
      [DrawOp.image "logo.png" leftMargin (18 * mmQ - 2)] else []) ++
    [DrawOp.setFont "Helvetica" 8,
      DrawOp.text (leftMargin + 40) (18 * mmQ) (BRAND_clinic_name ++ " — " ++ BRAND_phone)]
  logoOps ++ headOps ++ patOps ++ prakHead ++ fontOps ++ prak.2 ++ vikHead ++ vik.2 ++
    recHead ++ recs.2 ++ apxOps ++ errOps ++ footOps

/-- The last-resort `except` block of `_fallback_canvas_pdf`.  `e` is
`str(exc)` for the exception that escaped the canvas body (the source guard
`msg = str(e) if e else ...` tests the exception object, which is always
truthy, so `msg = str(e)`).  The message loop index `i` is read again while
drawing the engine-error snippet; when the message wraps to zero lines and
the snippet wraps to at least one, that read is Python `UnboundLocalError`,
modelled as `Except.error`. -/
def errorCanvas (e : String) (error_text : Option String) : Except String (List Nat) :=
  let msgLines := wrap_text_simple e 90
  let ops1 := [DrawOp.setFont "Helvetica-Bold" 12,
    DrawOp.text (18 * mmQ) (A4h - 30 * mmQ) "Error generating report",
    DrawOp.setFont "Helvetica" 9] ++
    msgLines.enum.map (fun iw => DrawOp.text (18 * mmQ) (A4h - (40 * mmQ + (iw.1 : ℚ) * 8)) iw.2)
  match error_text with
  | none => .ok (canvasSave ops1)
  | some et =>
    let etLines := wrap_text_simple et 90
    if etLines = [] then .ok (canvasSave ops1)
    else if msgLines = [] then
      .error "UnboundLocalError: local variable i referenced before assignment"
    else
      .ok (canvasSave (ops1 ++ etLines.enum.map (fun jw =>
        DrawOp.text (18 * mmQ)
          (A4h - (60 * mmQ + (((msgLines.length - 1 : ℕ) : ℚ) + (jw.1 : ℚ) + 1) * 8)) jw.2)))

/-- Model of `_fallback_canvas_pdf`: its `try` body (drawn faithfully when the canvas
library does not raise, i.e. `bodyFail = none`), else the last-resort
`except` block with `str(e) = s`. -/
def fallback_canvas_pdf (inp : ReportInput) (error_text : Option String)
    (bodyFail : Option String) : Except String (List Nat) :=
  match bodyFail with
  | none => .ok (canvasSave (fallbackOps inp error_text))
  | some e => errorCanvas e error_text

/-- Python slice `tb[:1200]` (first `n` characters). -/
def strSlice (s : String) (n : Nat) : String := String.mk (s.data.take n)

/-- Model of `branded_pdf_report`: the whole platypus composition is one `try` body
(abstracted as `primary`); on exception the canvas fallback is returned with
the 1200-character traceback snippet as `error_text`. -/
def branded_pdf_report (primary : Except String (List Nat)) (bodyFail : Option String)
    (inp : ReportInput) : Except String (List Nat) :=
  match primary with
  | .ok buf => .ok buf
  | .error tb => fallback_canvas_pdf inp (some (strSlice tb 1200)) bodyFail

/-- Minimally valid input: empty recommendation lists, no chart/logo files
present. -/
def minimalReportInput : ReportInput :=
  { patient := [], prakriti_pct := [], vikriti_pct := [], psych_pct := [],
    career_recs := [], rel_tips := [], health_recs := none,
    include_appendix := false, report_id := none, wow := none,
    hasLogo := false, show_footer_logo := false, today := "" }

/-- C3 fails as stated: when the primary composition raises (so the
traceback snippet is present) and the canvas fallback body raises an
exception whose message wraps to zero lines (for example the empty string),
the last-resort handler reads the message-loop index `i` before assignment
and itself raises `UnboundLocalError` instead of returning the minimal error
PDF — `branded_pdf_report` propagates an exception to the caller. -/
theorem claim_c3_counterexample :
    branded_pdf_report (Except.error "boom") (some "") minimalReportInput =
      Except.error "UnboundLocalError: local variable i referenced before assignment" := rfl

/-- C3 (amended): provided every exception message escaping the canvas
fallback body wraps to at least one line, `branded_pdf_report` never raises
and returns a non-empty buffer; on a primary-path exception it returns the
canvas fallback result, and when the fallback body also raises it returns
the minimal error PDF. -/
theorem claim_c3_amended_fallback_chain (primary : Except String (List Nat))
    (bodyFail : Option String) (inp : ReportInput)
    (hok : ∀ b, primary = Except.ok b → b ≠ [])
    (hmsg : ∀ s, bodyFail = some s → wrap_text_simple s 90 ≠ []) :
    (∃ buf, branded_pdf_report primary bodyFail inp = Except.ok buf ∧ buf ≠ []) ∧
    (∀ tb, primary = Except.error tb →
      branded_pdf_report primary bodyFail inp =
        fallback_canvas_pdf inp (some (strSlice tb 1200)) bodyFail) ∧
    (∀ tb e, primary = Except.error tb → bodyFail = some e →
      branded_pdf_report primary bodyFail inp =
        errorCanvas e (some (strSlice tb 1200))) := by
  cases primary with
  | ok b =>
    exact ⟨⟨b, rfl, hok b rfl⟩, fun tb htb => Except.noConfusion htb,
      fun tb e htb _ => Except.noConfusion htb⟩
  | error tb =>
    have hmain : ∃ buf,
        fallback_canvas_pdf inp (some (strSlice tb 1200)) bodyFail = Except.ok buf ∧
          buf ≠ [] := by
      cases bodyFail with
      | none => exact ⟨_, rfl, canvasSave_ne_nil _⟩
      | some e =>
        have hml := hmsg e rfl
        unfold fallback_canvas_pdf errorCanvas
        cases het : wrap_text_simple (strSlice tb 1200) 90 with
        | nil =>
          simp only [het, if_pos]
          exact ⟨_, rfl, canvasSave_ne_nil _⟩
        | cons a l =>
          simp only [het]
          rw [if_neg (by simp), if_neg hml]
          exact ⟨_, rfl, canvasSave_ne_nil _⟩
    refine ⟨hmain, fun tb' htb => ?_, fun tb' e htb hbf => ?_⟩
    · injection htb with h'
      subst h'
      rfl
    · injection htb with h'
      subst h'
      subst hbf
      rfl

theorem claim_c3_amended_fallback_chain_witness :
    (∃ buf, branded_pdf_report (Except.ok [37]) none minimalReportInput = Except.ok buf ∧
      buf ≠ []) ∧
    (∀ tb, Except.ok [37] = Except.error tb →
      branded_pdf_report (Except.ok [37]) none minimalReportInput =
        fallback_canvas_pdf minimalReportInput (some (strSlice tb 1200)) none) ∧
    (∀ tb e, Except.ok [37] = Except.error tb → (none : Option String) = some e →
      branded_pdf_report (Except.ok [37]) none minimalReportInput =
        errorCanvas e (some (strSlice tb 1200))) :=
  claim_c3_amended_fallback_chain (Except.ok [37]) none minimalReportInput
    (fun b hb => by cases hb; simp) (fun s hs => by cases hs)

end AyurPrakriti
